import Mathlib

/-!
Verification of the Senet game engine (packages/game-engine).

This file gives a shallow embedding of the TypeScript sources
`types.ts`, `board.ts`, `moves.ts` and `engine.ts`, and proves the
specified properties about them.

Modelling conventions:
* TypeScript numbers occurring in the game state (positions, die
  values, turn numbers, extra-roll counters, timestamps) are always
  integers in the engine, so they are modelled as `Int`.
* The JavaScript `Map<number, PieceState>` is modelled as an
  association list with insertion-order semantics (`mapSet` replaces
  an existing key in place, otherwise appends, exactly like
  `Map.set`; `mapGet` is `Map.get`).
* `Date.now()` is an impure clock read; every function that calls it
  (`applyRoll`, `applyMove` via `logEntry`) takes the current time as
  an explicit `now : Int` argument.
* `throw new Error(msg)` is modelled with `Except String`, carrying
  the exact message string.  The non-null assertion on the captured
  piece in `applyMove` (a crash when absent) is modelled as an error
  as well.
-/

-- ─── types.ts ────────────────────────────────────────────────────────────────

inductive PlayerId where
  | player1
  | player2
deriving DecidableEq, Repr

def BOARD_SIZE : Int := 30
def PIECES_PER_PLAYER : Nat := 5
def BEAR_OFF_POSITION : Int := 30

structure PieceState where
  id : String
  owner : PlayerId
  position : Int
deriving DecidableEq, Repr

inductive MoveType where
  | normal
  | capture
  | bear_off
deriving DecidableEq, Repr

/-- `Move` from types.ts; the source fields `from` and `to` are reserved
tokens in Lean and are rendered `frm` / `dest`. -/
structure Move where
  pieceId : String
  frm : Int
  dest : Int
  type : MoveType
  isBackward : Bool
deriving DecidableEq, Repr

structure MoveLogEntry where
  turnNumber : Int
  player : PlayerId
  rollValue : Int
  move : Option Move
  event : Option String
  timestamp : Int
deriving DecidableEq, Repr

structure InitialRollRound where
  player1 : Int
  player2 : Int
deriving DecidableEq, Repr

structure InitialRollState where
  rounds : List InitialRollRound
  decided : Bool
  firstPlayer : Option PlayerId
deriving DecidableEq, Repr

inductive GamePhase where
  | initial_roll
  | playing
  | finished
deriving DecidableEq, Repr

inductive TurnPhase where
  | roll
  | move
deriving DecidableEq, Repr

structure GameState where
  id : String
  phase : GamePhase
  pieces : List PieceState
  currentPlayer : PlayerId
  turnPhase : TurnPhase
  currentRoll : Option Int
  turnNumber : Int
  moveLog : List MoveLogEntry
  winner : Option PlayerId
  extraRolls : Int
  initialRolls : InitialRollState
deriving DecidableEq, Repr

def HOUSE_OF_NETTING : Int := 13
def HOUSE_OF_HAPPINESS : Int := 14
def HOUSE_OF_WATER : Int := 25
def WATERS_OF_CHAOS : Int := 26
def SAFE_SQUARES : List Int := [27, 28, 29]
def EXTRA_ROLL_SQUARES : List Int := [14, 25]

def getRow (position : Int) : Int :=
  if 0 ≤ position ∧ position ≤ 9 then 0
  else if 10 ≤ position ∧ position ≤ 19 then 1
  else if 20 ≤ position ∧ position ≤ 29 then 2
  else -1

def getOpponent (player : PlayerId) : PlayerId :=
  if player = PlayerId.player1 then PlayerId.player2 else PlayerId.player1

def rollGrantsExtraRoll (value : Int) : Bool :=
  value = 1 ∨ value = 4 ∨ value = 5

def rollEndsTurn (value : Int) : Bool :=
  value = 2 ∨ value = 3

def playerIdStr : PlayerId → String
  | PlayerId.player1 => "player1"
  | PlayerId.player2 => "player2"

-- ─── board.ts ────────────────────────────────────────────────────────────────

/-- Association-list model of `Map<number, PieceState>` (insertion order). -/
def BoardMap := List (Int × PieceState)

/-- `Map.get`. -/
def mapGet (m : BoardMap) (k : Int) : Option PieceState :=
  match m with
  | [] => none
  | (k1, v) :: rest => if k1 = k then some v else mapGet rest k

/-- `Map.has`. -/
def mapHas (m : BoardMap) (k : Int) : Bool :=
  (mapGet m k).isSome

/-- `Map.set`: replace in place if the key exists, else append. -/
def mapSet (m : BoardMap) (k : Int) (v : PieceState) : BoardMap :=
  match m with
  | [] => [(k, v)]
  | (k1, v1) :: rest =>
      if k1 = k then (k, v) :: rest else (k1, v1) :: mapSet rest k v

/-- The `for … of temp { if (pc.id === movingPieceId) { temp.delete(pos); break } }`
idiom from `isPathBlocked` / `isPathToBearOffBlocked`: remove the first
entry (in insertion order) whose piece id matches. -/
def mapRemoveFirstById (m : BoardMap) (pid : String) : BoardMap :=
  match m with
  | [] => []
  | (k, v) :: rest =>
      if v.id = pid then rest else (k, v) :: mapRemoveFirstById rest pid

/-- `buildBoardMap(pieces)`: Map of all on-board pieces. -/
def buildBoardMap (pieces : List PieceState) : BoardMap :=
  pieces.foldl
    (fun m p =>
      if 0 ≤ p.position ∧ p.position < BOARD_SIZE then mapSet m p.position p else m)
    []

/-- Left scan loop of `getConsecutiveGroupSize` (fuel-bounded; the loop runs
at most 10 times, once per square of a row, so fuel 30 never binds for the
rows produced by `getRow`). -/
def scanLeft (bm : BoardMap) (row : Int) (owner : PlayerId) : Int → Nat → Nat
  | _, 0 => 0
  | p, Nat.succ fuel =>
      if 0 ≤ p ∧ getRow p = row then
        match mapGet bm p with
        | some pc =>
            if pc.owner = owner then 1 + scanLeft bm row owner (p - 1) fuel else 0
        | none => 0
      else 0

/-- Right scan loop of `getConsecutiveGroupSize`. -/
def scanRight (bm : BoardMap) (row : Int) (owner : PlayerId) : Int → Nat → Nat
  | _, 0 => 0
  | p, Nat.succ fuel =>
      if p < BOARD_SIZE ∧ getRow p = row then
        match mapGet bm p with
        | some pc =>
            if pc.owner = owner then 1 + scanRight bm row owner (p + 1) fuel else 0
        | none => 0
      else 0

/-- `getConsecutiveGroupSize(boardMap, position, owner)`. -/
def getConsecutiveGroupSize (bm : BoardMap) (position : Int) (owner : PlayerId) : Nat :=
  let row := getRow position
  if row = -1 then 0
  else 1 + scanLeft bm row owner (position - 1) 30 + scanRight bm row owner (position + 1) 30

/-- `isProtected(boardMap, position)`: 2+ in a row, same row. -/
def isProtected (bm : BoardMap) (position : Int) : Bool :=
  match mapGet bm position with
  | none => false
  | some piece => decide (2 ≤ getConsecutiveGroupSize bm position piece.owner)

/-- `isPartOfBlockade(boardMap, position)`: 3+ in a row, same row. -/
def isPartOfBlockade (bm : BoardMap) (position : Int) : Bool :=
  match mapGet bm position with
  | none => false
  | some piece => decide (3 ≤ getConsecutiveGroupSize bm position piece.owner)

/-- `[a, a+1, …, a+n-1]`. -/
def ascList (a : Int) : Nat → List Int
  | 0 => []
  | Nat.succ n => a :: ascList (a + 1) n

/-- `[a, a-1, …, a-n+1]`. -/
def descList (a : Int) : Nat → List Int
  | 0 => []
  | Nat.succ n => a :: descList (a - 1) n

/-- The squares visited by the loop of `isPathBlocked`: from `frm`
exclusive to `dst` inclusive, in the direction of travel (`dir = dst > frm ? 1 : -1`). -/
def pathSquares (frm dst : Int) : List Int :=
  if frm < dst then ascList (frm + 1) (dst - frm).toNat
  else descList (frm - 1) (frm - dst).toNat

/-- `isPathBlocked(boardMap, from, to, movingPieceId)`. -/
def isPathBlocked (bm : BoardMap) (frm dst : Int) (movingPieceId : String) : Bool :=
  let temp := mapRemoveFirstById bm movingPieceId
  (pathSquares frm dst).any fun pos =>
    if pos < 0 ∨ BOARD_SIZE ≤ pos then false
    else
      match mapGet temp pos with
      | some pc => decide (3 ≤ getConsecutiveGroupSize temp pos pc.owner)
      | none => false

/-- `isPathToBearOffBlocked(boardMap, from, movingPieceId)`: loop over
`from+1 … BOARD_SIZE-1`. -/
def isPathToBearOffBlocked (bm : BoardMap) (frm : Int) (movingPieceId : String) : Bool :=
  let temp := mapRemoveFirstById bm movingPieceId
  (ascList (frm + 1) (BOARD_SIZE - (frm + 1)).toNat).any fun pos =>
    match mapGet temp pos with
    | some pc => decide (3 ≤ getConsecutiveGroupSize temp pos pc.owner)
    | none => false

/-- `findFirstAvailableSquare(boardMap, startFrom)`: first empty square
scanning upward from `startFrom`, then wrapping from 0; fallback 0. -/
def findFirstAvailableSquare (bm : BoardMap) (startFrom : Int) : Int :=
  match (ascList startFrom (BOARD_SIZE - startFrom).toNat).find? (fun pos => !mapHas bm pos) with
  | some p => p
  | none =>
      match (ascList 0 startFrom.toNat).find? (fun pos => !mapHas bm pos) with
      | some p => p
      | none => 0

-- ─── moves.ts ────────────────────────────────────────────────────────────────

/-- Loop body of `getDirectionalMoves`: the candidate move contributed by one
piece (each loop iteration pushes at most one move).  The source's
`if (!backward && targetPos > BOARD_SIZE - 1) continue` line is unreachable
(such targets are already caught by `targetPos >= BOARD_SIZE`) and is kept
as the corresponding redundant test. -/
def pieceDirectionalMove (bm : BoardMap) (playerId : PlayerId) (rollValue : Int)
    (backward : Bool) (piece : PieceState) : Option Move :=
  let targetPos := if backward then piece.position - rollValue else piece.position + rollValue
  if backward = false ∧ targetPos = BEAR_OFF_POSITION then
    if getRow piece.position = 2 ∧ isPathToBearOffBlocked bm piece.position piece.id = false then
      some { pieceId := piece.id, frm := piece.position, dest := BEAR_OFF_POSITION,
             type := MoveType.bear_off, isBackward := false }
    else none
  else if targetPos < 0 ∨ BOARD_SIZE ≤ targetPos then none
  else if backward = false ∧ BOARD_SIZE - 1 < targetPos then none
  else if isPathBlocked bm piece.position targetPos piece.id then none
  else
    match mapGet bm targetPos with
    | some occupant =>
        if occupant.owner = playerId then none
        else if targetPos ∈ SAFE_SQUARES then none
        else if isProtected bm targetPos then none
        else some { pieceId := piece.id, frm := piece.position, dest := targetPos,
                    type := MoveType.capture, isBackward := backward }
    | none =>
        some { pieceId := piece.id, frm := piece.position, dest := targetPos,
               type := MoveType.normal, isBackward := backward }

/-- `getDirectionalMoves(state, playerId, rollValue, backward)`. -/
def getDirectionalMoves (state : GameState) (playerId : PlayerId) (rollValue : Int)
    (backward : Bool) : List Move :=
  let pieces := state.pieces.filter fun p =>
    decide (p.owner = playerId ∧ p.position < BEAR_OFF_POSITION)
  let boardMap := buildBoardMap state.pieces
  pieces.filterMap (pieceDirectionalMove boardMap playerId rollValue backward)

/-- `getLegalMoves(state, playerId, rollValue)`: forward moves first; the
backward set only when no forward move exists. -/
def getLegalMoves (state : GameState) (playerId : PlayerId) (rollValue : Int) : List Move :=
  let forward := getDirectionalMoves state playerId rollValue false
  if 0 < forward.length then forward
  else getDirectionalMoves state playerId rollValue true

-- ─── engine.ts ───────────────────────────────────────────────────────────────

/-- `logEntry(...)`; `timestamp: Date.now()` is passed in as `now`. -/
def logEntry (turnNumber : Int) (player : PlayerId) (rollValue : Int)
    (move : Option Move) (event : Option String) (now : Int) : MoveLogEntry :=
  { turnNumber := turnNumber, player := player, rollValue := rollValue,
    move := move, event := event, timestamp := now }

/-- `initGame(gameId)`. -/
def initGame (gameId : String) : GameState :=
  { id := gameId, phase := GamePhase.initial_roll, pieces := [],
    currentPlayer := PlayerId.player1, turnPhase := TurnPhase.roll,
    currentRoll := none, turnNumber := 0, moveLog := [], winner := none,
    extraRolls := 0,
    initialRolls := { rounds := [], decided := false, firstPlayer := none } }

/-- `placePieces(firstPlayer)`: starter on odd indices 1,3,5,7,9; the other
player on even indices 0,2,4,6,8. -/
def placePieces (firstPlayer : PlayerId) : List PieceState :=
  let second := getOpponent firstPlayer
  (List.range 10).foldl
    (fun pieces i =>
      let owner := if i % 2 = 1 then firstPlayer else second
      let idx := (pieces.filter fun p => decide (p.owner = owner)).length
      pieces ++ [{ id := playerIdStr owner ++ "_" ++ toString idx,
                   owner := owner, position := (i : Int) }])
    []

/-- `performInitialRoll(state, p1Roll, p2Roll)`. -/
def performInitialRoll (state : GameState) (p1Roll p2Roll : Int) : GameState :=
  let rounds := state.initialRolls.rounds ++ [{ player1 := p1Roll, player2 := p2Roll }]
  let firstPlayer : Option PlayerId :=
    if p1Roll = 1 ∧ p2Roll ≠ 1 then some PlayerId.player1
    else if p2Roll = 1 ∧ p1Roll ≠ 1 then some PlayerId.player2
    else none
  let newState := { state with
    initialRolls := { rounds := rounds, decided := firstPlayer.isSome,
                      firstPlayer := firstPlayer } }
  match firstPlayer with
  | some w =>
      { newState with pieces := placePieces w, phase := GamePhase.playing,
                      currentPlayer := w, turnPhase := TurnPhase.roll, turnNumber := 1 }
  | none => newState

/-- `applyRoll(state, rollValue)`. -/
def applyRoll (state : GameState) (rollValue : Int) (now : Int) :
    Except String GameState :=
  if state.phase ≠ GamePhase.playing then Except.error "Game is not in playing phase"
  else if state.turnPhase ≠ TurnPhase.roll then Except.error "Not in roll phase"
  else if rollValue = 6 then
    Except.ok { state with
      currentRoll := none,
      moveLog := state.moveLog ++
        [logEntry state.turnNumber state.currentPlayer 6 none (some "rolled_6") now] }
  else
    let moves := getLegalMoves state state.currentPlayer rollValue
    if moves.length = 0 then
      Except.ok { state with
        currentRoll := none, extraRolls := 0,
        currentPlayer := getOpponent state.currentPlayer,
        turnNumber := state.turnNumber + 1, turnPhase := TurnPhase.roll,
        moveLog := state.moveLog ++
          [logEntry state.turnNumber state.currentPlayer rollValue none (some "blocked") now] }
    else
      Except.ok { state with currentRoll := some rollValue, turnPhase := TurnPhase.move }

/-- True when some piece in the list has the given id (`pieces.find` succeeds,
i.e. `findPiece` does not throw). -/
def hasPieceId (pieces : List PieceState) (pid : String) : Bool :=
  pieces.any fun p => p.id = pid

/-- `pieces.find(pc => pc.id === id)`. -/
def findPieceById (pieces : List PieceState) (pid : String) : Option PieceState :=
  pieces.find? fun p => p.id = pid

/-- `findPiece(pieces, id).position = pos`: mutate the position of the first
piece with the given id. -/
def setPosFirst : List PieceState → String → Int → List PieceState
  | [], _, _ => []
  | p :: rest, pid, pos =>
      if p.id = pid then { p with position := pos } :: rest
      else p :: setPosFirst rest pid pos

/-- Mutate the position of the first piece satisfying a predicate (used for
the captured piece). -/
def setPosFirstWhere : List PieceState → (PieceState → Bool) → Int → List PieceState
  | [], _, _ => []
  | p :: rest, f, pos =>
      if f p then { p with position := pos } :: rest
      else p :: setPosFirstWhere rest f pos

/-- The "Apply piece movement" block of `applyMove`: relocate pieces and
produce the initial `event` value.  `findPiece` throwing and the non-null
assertion on the captured piece are modelled as errors. -/
def movePieces (pieces : List PieceState) (move : Move) :
    Except String (List PieceState × Option String) :=
  match move.type with
  | MoveType.bear_off =>
      if hasPieceId pieces move.pieceId then
        Except.ok (setPosFirst pieces move.pieceId BEAR_OFF_POSITION, some "bear_off")
      else Except.error ("Piece not found: " ++ move.pieceId)
  | MoveType.capture =>
      if hasPieceId pieces move.pieceId then
        if pieces.any (fun p => decide (p.position = move.dest ∧ p.id ≠ move.pieceId)) then
          let pieces1 := setPosFirstWhere pieces
            (fun p => decide (p.position = move.dest ∧ p.id ≠ move.pieceId)) move.frm
          Except.ok (setPosFirst pieces1 move.pieceId move.dest, some "capture")
        else Except.error "Captured piece not found"
      else Except.error ("Piece not found: " ++ move.pieceId)
  | MoveType.normal =>
      if hasPieceId pieces move.pieceId then
        Except.ok (setPosFirst pieces move.pieceId move.dest, none)
      else Except.error ("Piece not found: " ++ move.pieceId)

/-- The wash-back destination for a piece landing on the waters of chaos
(square 26): 13 if free, else 0 if free, else the first free square scanning
upward from 1 (then wrapping).  `bm` is the board without the moving piece. -/
def washDestination (bm : BoardMap) : Int :=
  if mapHas bm HOUSE_OF_NETTING then
    if mapHas bm 0 then findFirstAvailableSquare bm 1 else 0
  else HOUSE_OF_NETTING

/-- The "Special-square effects" block of `applyMove`: given the pieces after
movement, the initial event and the pending extra-roll count, produce
(pieces, event, extraRolls, turnEnded). -/
def specialSquareStep (pieces : List PieceState) (move : Move) (event : Option String)
    (extraRolls : Int) : List PieceState × Option String × Int × Bool :=
  if move.dest < BEAR_OFF_POSITION then
    if move.dest = WATERS_OF_CHAOS then
      let others := pieces.filter fun p => decide (p.id ≠ move.pieceId)
      let bm := buildBoardMap others
      (setPosFirst pieces move.pieceId (washDestination bm), some "waters_of_chaos", 0, true)
    else if move.dest = HOUSE_OF_NETTING then
      (pieces, some "house_of_netting", 0, true)
    else if move.dest ∈ EXTRA_ROLL_SQUARES then
      (pieces, some (event.getD ("bonus_square_" ++ toString move.dest)), extraRolls + 1, false)
    else (pieces, event, extraRolls, false)
  else (pieces, event, extraRolls, false)

/-- `checkWinner(state)`. -/
def checkWinner (state : GameState) : Option PlayerId :=
  if (state.pieces.filter fun p =>
        decide (p.owner = PlayerId.player1 ∧ p.position = BEAR_OFF_POSITION)).length
      = PIECES_PER_PLAYER then some PlayerId.player1
  else if (state.pieces.filter fun p =>
        decide (p.owner = PlayerId.player2 ∧ p.position = BEAR_OFF_POSITION)).length
      = PIECES_PER_PLAYER then some PlayerId.player2
  else none

/-- The state built in the success branch of `applyMove`, given the pieces
`moved` and initial event `event0` produced by the movement block. -/
def applyMoveResult (state : GameState) (move : Move) (rollVal : Int) (now : Int)
    (moved : List PieceState) (event0 : Option String) : GameState :=
  let st := specialSquareStep moved move event0 state.extraRolls
  let pieces2 := st.1
  let event2 := st.2.1
  let extraRolls2 := st.2.2.1
  let turnEnded := st.2.2.2
  let cont :=
    if turnEnded then
      (getOpponent state.currentPlayer, state.turnNumber + 1, extraRolls2)
    else
      let er := if rollGrantsExtraRoll rollVal then extraRolls2 + 1 else extraRolls2
      if 0 < er then (state.currentPlayer, state.turnNumber, er - 1)
      else (getOpponent state.currentPlayer, state.turnNumber + 1, er)
  let winner := checkWinner { state with pieces := pieces2 }
  { state with
    pieces := pieces2,
    currentPlayer := cont.1,
    turnPhase := TurnPhase.roll,
    currentRoll := none,
    turnNumber := cont.2.1,
    moveLog := state.moveLog ++
      [logEntry state.turnNumber state.currentPlayer rollVal (some move) event2 now],
    winner := winner,
    extraRolls := cont.2.2,
    phase := if winner.isSome then GamePhase.finished else GamePhase.playing }

/-- `applyMove(state, move)`. -/
def applyMove (state : GameState) (move : Move) (now : Int) :
    Except String GameState :=
  if state.phase ≠ GamePhase.playing then Except.error "Game is not in playing phase"
  else if state.turnPhase ≠ TurnPhase.move then Except.error "Not in move phase"
  else
    match state.currentRoll with
    | none => Except.error "No current roll"
    | some rollVal =>
      let legal := getLegalMoves state state.currentPlayer rollVal
      if !(legal.any fun m => decide (m.pieceId = move.pieceId ∧ m.dest = move.dest)) then
        Except.error "Illegal move"
      else
        match movePieces state.pieces move with
        | Except.error e => Except.error e
        | Except.ok (moved, event0) =>
          Except.ok (applyMoveResult state move rollVal now moved event0)

-- ─── JSON round-trip model ───────────────────────────────────────────────────

/-- JSON value tree, as produced by `JSON.stringify` / consumed by
`JSON.parse`.  All numbers serialized from a `GameState` are integers
(positions, die values, turn numbers, `Date.now()` timestamps), so `num`
carries an `Int`. -/
inductive Json where
  | num (n : Int)
  | str (s : String)
  | bool (b : Bool)
  | null
  | arr (elems : List Json)
  | obj (fields : List (String × Json))

def decPlayerId (s : String) : Option PlayerId :=
  if s = "player1" then some PlayerId.player1
  else if s = "player2" then some PlayerId.player2
  else none

def gamePhaseStr : GamePhase → String
  | GamePhase.initial_roll => "initial_roll"
  | GamePhase.playing => "playing"
  | GamePhase.finished => "finished"

def decGamePhase (s : String) : Option GamePhase :=
  if s = "initial_roll" then some GamePhase.initial_roll
  else if s = "playing" then some GamePhase.playing
  else if s = "finished" then some GamePhase.finished
  else none

def turnPhaseStr : TurnPhase → String
  | TurnPhase.roll => "roll"
  | TurnPhase.move => "move"

def decTurnPhase (s : String) : Option TurnPhase :=
  if s = "roll" then some TurnPhase.roll
  else if s = "move" then some TurnPhase.move
  else none

def moveTypeStr : MoveType → String
  | MoveType.normal => "normal"
  | MoveType.capture => "capture"
  | MoveType.bear_off => "bear_off"

def decMoveType (s : String) : Option MoveType :=
  if s = "normal" then some MoveType.normal
  else if s = "capture" then some MoveType.capture
  else if s = "bear_off" then some MoveType.bear_off
  else none

def encPiece (p : PieceState) : Json :=
  Json.obj [("id", Json.str p.id), ("owner", Json.str (playerIdStr p.owner)),
            ("position", Json.num p.position)]

def decPiece : Json → Option PieceState
  | Json.obj [("id", Json.str i), ("owner", Json.str o), ("position", Json.num p)] =>
      (decPlayerId o).map fun owner => { id := i, owner := owner, position := p }
  | _ => none

def encMove (m : Move) : Json :=
  Json.obj [("pieceId", Json.str m.pieceId), ("from", Json.num m.frm),
            ("to", Json.num m.dest), ("type", Json.str (moveTypeStr m.type)),
            ("isBackward", Json.bool m.isBackward)]

def decMove : Json → Option Move
  | Json.obj [("pieceId", Json.str pid), ("from", Json.num f), ("to", Json.num t),
              ("type", Json.str ty), ("isBackward", Json.bool b)] =>
      (decMoveType ty).map fun mt =>
        { pieceId := pid, frm := f, dest := t, type := mt, isBackward := b }
  | _ => none

/-- `move: Move | null`. -/
def encOptMove : Option Move → Json
  | none => Json.null
  | some m => encMove m

def decOptMove : Json → Option (Option Move)
  | Json.null => some none
  | j => (decMove j).map some

/-- A log entry; an absent `event` (`undefined`) is dropped by
`JSON.stringify`, so the field is omitted when `none`. -/
def encLogEntry (e : MoveLogEntry) : Json :=
  Json.obj
    ([("turnNumber", Json.num e.turnNumber),
      ("player", Json.str (playerIdStr e.player)),
      ("rollValue", Json.num e.rollValue),
      ("move", encOptMove e.move)] ++
     (match e.event with
      | some ev => [("event", Json.str ev)]
      | none => []) ++
     [("timestamp", Json.num e.timestamp)])

def decLogEntry : Json → Option MoveLogEntry
  | Json.obj [("turnNumber", Json.num tn), ("player", Json.str pl),
              ("rollValue", Json.num rv), ("move", jm),
              ("event", Json.str ev), ("timestamp", Json.num ts)] =>
      (decPlayerId pl).bind fun player =>
        (decOptMove jm).map fun mv =>
          { turnNumber := tn, player := player, rollValue := rv, move := mv,
            event := some ev, timestamp := ts }
  | Json.obj [("turnNumber", Json.num tn), ("player", Json.str pl),
              ("rollValue", Json.num rv), ("move", jm),
              ("timestamp", Json.num ts)] =>
      (decPlayerId pl).bind fun player =>
        (decOptMove jm).map fun mv =>
          { turnNumber := tn, player := player, rollValue := rv, move := mv,
            event := none, timestamp := ts }
  | _ => none

def encRound (r : InitialRollRound) : Json :=
  Json.obj [("player1", Json.num r.player1), ("player2", Json.num r.player2)]

def decRound : Json → Option InitialRollRound
  | Json.obj [("player1", Json.num a), ("player2", Json.num b)] =>
      some { player1 := a, player2 := b }
  | _ => none

def encOptPlayer : Option PlayerId → Json
  | none => Json.null
  | some p => Json.str (playerIdStr p)

def decOptPlayer : Json → Option (Option PlayerId)
  | Json.null => some none
  | Json.str s => (decPlayerId s).map some
  | _ => none

def encOptInt : Option Int → Json
  | none => Json.null
  | some n => Json.num n

def decOptInt : Json → Option (Option Int)
  | Json.null => some none
  | Json.num n => some (some n)
  | _ => none

/-- Element-wise decoder for a JSON array (`none` on the first failure). -/
def decJsonList (g : Json → Option α) : List Json → Option (List α)
  | [] => some []
  | j :: rest =>
      match g j with
      | none => none
      | some a =>
          match decJsonList g rest with
          | none => none
          | some as => some (a :: as)

def encInitialRollState (ir : InitialRollState) : Json :=
  Json.obj [("rounds", Json.arr (ir.rounds.map encRound)),
            ("decided", Json.bool ir.decided),
            ("firstPlayer", encOptPlayer ir.firstPlayer)]

def decInitialRollState : Json → Option InitialRollState
  | Json.obj [("rounds", Json.arr rs), ("decided", Json.bool d), ("firstPlayer", jf)] =>
      (decJsonList decRound rs).bind fun rounds =>
        (decOptPlayer jf).map fun fp =>
          { rounds := rounds, decided := d, firstPlayer := fp }
  | _ => none

/-- `JSON.stringify(state)` (as a JSON value tree, field order as declared). -/
def encGameState (s : GameState) : Json :=
  Json.obj
    [("id", Json.str s.id),
     ("phase", Json.str (gamePhaseStr s.phase)),
     ("pieces", Json.arr (s.pieces.map encPiece)),
     ("currentPlayer", Json.str (playerIdStr s.currentPlayer)),
     ("turnPhase", Json.str (turnPhaseStr s.turnPhase)),
     ("currentRoll", encOptInt s.currentRoll),
     ("turnNumber", Json.num s.turnNumber),
     ("moveLog", Json.arr (s.moveLog.map encLogEntry)),
     ("winner", encOptPlayer s.winner),
     ("extraRolls", Json.num s.extraRolls),
     ("initialRolls", encInitialRollState s.initialRolls)]

/-- `JSON.parse` of a serialized game state. -/
def decGameState : Json → Option GameState
  | Json.obj [("id", Json.str gid), ("phase", Json.str ph), ("pieces", Json.arr ps),
              ("currentPlayer", Json.str cp), ("turnPhase", Json.str tp),
              ("currentRoll", jcr), ("turnNumber", Json.num tn),
              ("moveLog", Json.arr ml), ("winner", jw), ("extraRolls", Json.num er),
              ("initialRolls", jir)] =>
      (decGamePhase ph).bind fun phase =>
        (decJsonList decPiece ps).bind fun pieces =>
          (decPlayerId cp).bind fun currentPlayer =>
            (decTurnPhase tp).bind fun turnPhase =>
              (decOptInt jcr).bind fun currentRoll =>
                (decJsonList decLogEntry ml).bind fun moveLog =>
                  (decOptPlayer jw).bind fun winner =>
                    (decInitialRollState jir).map fun initialRolls =>
                      { id := gid, phase := phase, pieces := pieces,
                        currentPlayer := currentPlayer, turnPhase := turnPhase,
                        currentRoll := currentRoll, turnNumber := tn,
                        moveLog := moveLog, winner := winner, extraRolls := er,
                        initialRolls := initialRolls }
  | _ => none

-- ─── Fixtures for witnesses and counterexamples ──────────────────────────────

/-- A board holding a player1 3-run on squares 5,6,7; `player1_a` (on 5) is
the moving piece of the path 5 → 8. -/
def runBoard : BoardMap := buildBoardMap
  [⟨"player1_a", PlayerId.player1, 5⟩, ⟨"player1_b", PlayerId.player1, 6⟩,
   ⟨"player1_c", PlayerId.player1, 7⟩]

/-- A board holding a player2 3-run on squares 15,16,17; `player2_c` (on 17)
is the moving piece of the backward path 17 → 13. -/
def runBoard2 : BoardMap := buildBoardMap
  [⟨"player2_a", PlayerId.player2, 15⟩, ⟨"player2_b", PlayerId.player2, 16⟩,
   ⟨"player2_c", PlayerId.player2, 17⟩]

/-- A player2 2-run on squares 6 and 7. -/
def pairBoard : BoardMap := buildBoardMap
  [⟨"player2_0", PlayerId.player2, 6⟩, ⟨"player2_1", PlayerId.player2, 7⟩]

/-- A player2 3-run on squares 6,7,8 (no other pieces). -/
def tripleBoard : BoardMap := buildBoardMap
  [⟨"player2_0", PlayerId.player2, 6⟩, ⟨"player2_1", PlayerId.player2, 7⟩,
   ⟨"player2_2", PlayerId.player2, 8⟩]

/-- A player1 3-run on squares 24,25,26 with an unrelated player1 piece on
20 as the moving piece. -/
def wallBoard : BoardMap := buildBoardMap
  [⟨"player1_0", PlayerId.player1, 20⟩, ⟨"player1_1", PlayerId.player1, 24⟩,
   ⟨"player1_2", PlayerId.player1, 25⟩, ⟨"player1_3", PlayerId.player1, 26⟩]

/-- A playing-phase state with a lone unprotected player2 piece capturable by
player1 with a roll of 2. -/
def captureState : GameState := { initGame "w" with
  phase := GamePhase.playing,
  pieces := [⟨"player1_0", PlayerId.player1, 4⟩, ⟨"player2_0", PlayerId.player2, 6⟩],
  turnPhase := TurnPhase.move,
  currentRoll := some 2,
  turnNumber := 1 }

/-- A playing-phase, move-phase state with one player1 piece on square 8 and
a roll of 5 (so that 8 + 5 lands on the house of netting). -/
def nettingState : GameState := { initGame "w" with
  phase := GamePhase.playing,
  pieces := [⟨"player1_0", PlayerId.player1, 8⟩],
  turnPhase := TurnPhase.move,
  currentRoll := some 5,
  turnNumber := 3 }

def nettingMove : Move := ⟨"player1_0", 8, 13, MoveType.normal, false⟩

/-- A playing-phase, move-phase state where player1 can move 21 → 26 (waters
of chaos) while square 13 is occupied by player2, so the wash goes to 0. -/
def watersState : GameState := { initGame "w" with
  phase := GamePhase.playing,
  pieces := [⟨"player1_0", PlayerId.player1, 21⟩, ⟨"player2_0", PlayerId.player2, 13⟩],
  turnPhase := TurnPhase.move,
  currentRoll := some 5,
  turnNumber := 7 }

def watersMove : Move := ⟨"player1_0", 21, 26, MoveType.normal, false⟩

/-- A state with a player1 piece on 25 (exact bear-off with a 5, overshoot
with a 6) and another player1 piece on 2. -/
def bearOffState : GameState := { initGame "w" with
  phase := GamePhase.playing,
  pieces := [⟨"player1_0", PlayerId.player1, 25⟩, ⟨"player1_1", PlayerId.player1, 2⟩],
  turnPhase := TurnPhase.move,
  currentRoll := some 5,
  turnNumber := 1 }

/-- A playing-phase, roll-phase state (the initial placement, player1 to
roll). -/
def rollState : GameState := { initGame "w" with
  phase := GamePhase.playing,
  pieces := placePieces PlayerId.player1,
  turnNumber := 1 }

/-- The state `applyMove nettingState nettingMove 0` evaluates to. -/
def nettingResult : GameState :=
  { id := "w", phase := GamePhase.playing,
    pieces := [⟨"player1_0", PlayerId.player1, 13⟩],
    currentPlayer := PlayerId.player2, turnPhase := TurnPhase.roll,
    currentRoll := none, turnNumber := 4,
    moveLog := [{ turnNumber := 3, player := PlayerId.player1, rollValue := 5,
                  move := some nettingMove, event := some "house_of_netting",
                  timestamp := 0 }],
    winner := none, extraRolls := 0,
    initialRolls := { rounds := [], decided := false, firstPlayer := none } }

/-- The state `applyMove watersState watersMove 0` evaluates to (13 is
occupied by player2, so the wash goes to square 0). -/
def watersResult : GameState :=
  { id := "w", phase := GamePhase.playing,
    pieces := [⟨"player1_0", PlayerId.player1, 0⟩, ⟨"player2_0", PlayerId.player2, 13⟩],
    currentPlayer := PlayerId.player2, turnPhase := TurnPhase.roll,
    currentRoll := none, turnNumber := 8,
    moveLog := [{ turnNumber := 7, player := PlayerId.player1, rollValue := 5,
                  move := some watersMove, event := some "waters_of_chaos",
                  timestamp := 0 }],
    winner := none, extraRolls := 0,
    initialRolls := { rounds := [], decided := false, firstPlayer := none } }

/-- `rollState` after `applyRoll _ 2 0`: enters move phase. -/
def rolledState : GameState :=
  { rollState with currentRoll := some 2, turnPhase := TurnPhase.move }

/-- A playing-phase state in move sub-phase but with no current roll. -/
def noRollState : GameState :=
  { initGame "w" with phase := GamePhase.playing, turnPhase := TurnPhase.move }

-- ─── Helper lemmas ───────────────────────────────────────────────────────────

theorem mem_ascList {x a : Int} {n : Nat} : x ∈ ascList a n ↔ a ≤ x ∧ x < a + n := by
  induction n generalizing a with
  | zero => simp [ascList]
  | succ n ih =>
      simp [ascList, ih]
      omega

theorem mem_descList {x a : Int} {n : Nat} : x ∈ descList a n ↔ a - n < x ∧ x ≤ a := by
  induction n generalizing a with
  | zero => simp [descList]
  | succ n ih =>
      simp [descList, ih]
      omega

theorem mem_pathSquares {x frm dst : Int} :
    x ∈ pathSquares frm dst ↔ (frm < x ∧ x ≤ dst) ∨ (dst ≤ x ∧ x < frm) := by
  unfold pathSquares
  split
  · rw [mem_ascList]; omega
  · rw [mem_descList]; omega

theorem blockedAt_iff (temp : BoardMap) (pos : Int) :
    ((if pos < 0 ∨ BOARD_SIZE ≤ pos then false
      else
        match mapGet temp pos with
        | some pc => decide (3 ≤ getConsecutiveGroupSize temp pos pc.owner)
        | none => false) = true)
    ↔ 0 ≤ pos ∧ pos < 30 ∧
        ∃ pc, mapGet temp pos = some pc ∧ 3 ≤ getConsecutiveGroupSize temp pos pc.owner := by
  unfold BOARD_SIZE
  split
  · simp; omega
  · rename_i hrange
    constructor
    · intro h
      refine ⟨by omega, by omega, ?_⟩
      rcases hget : mapGet temp pos with _ | pc
      · rw [hget] at h; simp at h
      · rw [hget] at h; simp at h; exact ⟨pc, rfl, h⟩
    · rintro ⟨-, -, pc, hget, hsz⟩
      rw [hget]
      simpa using hsz

theorem isPathBlocked_iff (bm : BoardMap) (frm dst : Int) (mid : String) :
    isPathBlocked bm frm dst mid = true ↔
      ∃ pos, ((frm < pos ∧ pos ≤ dst) ∨ (dst ≤ pos ∧ pos < frm)) ∧
        0 ≤ pos ∧ pos < 30 ∧
        ∃ pc, mapGet (mapRemoveFirstById bm mid) pos = some pc ∧
          3 ≤ getConsecutiveGroupSize (mapRemoveFirstById bm mid) pos pc.owner := by
  unfold isPathBlocked
  rw [List.any_eq_true]
  constructor
  · rintro ⟨pos, hmem, hcond⟩
    exact ⟨pos, mem_pathSquares.mp hmem, (blockedAt_iff _ pos).mp hcond⟩
  · rintro ⟨pos, hpath, hrest⟩
    exact ⟨pos, mem_pathSquares.mpr hpath, (blockedAt_iff _ pos).mpr hrest⟩

theorem isPathToBearOffBlocked_iff (bm : BoardMap) (frm : Int) (mid : String) :
    isPathToBearOffBlocked bm frm mid = true ↔
      ∃ pos, frm < pos ∧ pos < 30 ∧
        ∃ pc, mapGet (mapRemoveFirstById bm mid) pos = some pc ∧
          3 ≤ getConsecutiveGroupSize (mapRemoveFirstById bm mid) pos pc.owner := by
  unfold isPathToBearOffBlocked BOARD_SIZE
  rw [List.any_eq_true]
  constructor
  · rintro ⟨pos, hmem, hcond⟩
    rw [mem_ascList] at hmem
    rcases hget : mapGet (mapRemoveFirstById bm mid) pos with _ | pc
    · rw [hget] at hcond; simp at hcond
    · rw [hget] at hcond; simp at hcond
      exact ⟨pos, by omega, by omega, pc, hget, hcond⟩
  · rintro ⟨pos, h1, h2, pc, hget, hsz⟩
    refine ⟨pos, mem_ascList.mpr (by omega), ?_⟩
    rw [hget]
    simpa using hsz

theorem pieceDirectionalMove_fields {bm : BoardMap} {p : PlayerId} {r : Int} {bw : Bool}
    {piece : PieceState} {mv : Move}
    (h : pieceDirectionalMove bm p r bw piece = some mv) :
    mv.pieceId = piece.id ∧ mv.frm = piece.position ∧ mv.isBackward = bw := by
  simp only [pieceDirectionalMove] at h
  repeat' split at h
  all_goals first
    | exact Option.noConfusion h
    | (injection h with h1; subst h1; refine ⟨rfl, rfl, ?_⟩; simp_all)

theorem pieceDirectionalMove_bear_off_inv {bm : BoardMap} {p : PlayerId} {r : Int}
    {bw : Bool} {piece : PieceState} {mv : Move}
    (h : pieceDirectionalMove bm p r bw piece = some mv)
    (ht : mv.type = MoveType.bear_off) :
    bw = false ∧ piece.position + r = 30 ∧ getRow piece.position = 2 ∧
      isPathToBearOffBlocked bm piece.position piece.id = false ∧
      mv = { pieceId := piece.id, frm := piece.position, dest := 30,
             type := MoveType.bear_off, isBackward := false } := by
  simp only [pieceDirectionalMove, BEAR_OFF_POSITION] at h
  repeat' split at h
  all_goals first
    | exact Option.noConfusion h
    | (injection h with h1; subst h1; simp_all)

theorem pieceDirectionalMove_bear_off_emit {bm : BoardMap} {p : PlayerId} {r : Int}
    {piece : PieceState}
    (h30 : piece.position + r = 30) (hrow : getRow piece.position = 2)
    (hblock : isPathToBearOffBlocked bm piece.position piece.id = false) :
    pieceDirectionalMove bm p r false piece = some
      { pieceId := piece.id, frm := piece.position, dest := 30,
        type := MoveType.bear_off, isBackward := false } := by
  simp [pieceDirectionalMove, BEAR_OFF_POSITION, h30, hrow, hblock]

theorem pieceDirectionalMove_overshoot {bm : BoardMap} {p : PlayerId} {r : Int}
    {piece : PieceState} (h : 30 < piece.position + r) :
    pieceDirectionalMove bm p r false piece = none := by
  simp only [pieceDirectionalMove, BEAR_OFF_POSITION, BOARD_SIZE,
    Bool.false_eq_true, if_false]
  rw [if_neg (by rintro ⟨-, h2⟩; omega), if_pos (by omega)]

theorem pieceDirectionalMove_capture_inv {bm : BoardMap} {p : PlayerId} {r : Int}
    {bw : Bool} {piece : PieceState} {mv : Move}
    (h : pieceDirectionalMove bm p r bw piece = some mv)
    (ht : mv.type = MoveType.capture) :
    isProtected bm mv.dest = false := by
  simp only [pieceDirectionalMove] at h
  repeat' split at h
  all_goals first
    | exact Option.noConfusion h
    | (injection h with h1; subst h1; simp_all)

theorem mem_getDirectionalMoves {s : GameState} {p : PlayerId} {r : Int} {bw : Bool}
    {mv : Move} :
    mv ∈ getDirectionalMoves s p r bw ↔
      ∃ piece, piece ∈ s.pieces ∧ piece.owner = p ∧ piece.position < 30 ∧
        pieceDirectionalMove (buildBoardMap s.pieces) p r bw piece = some mv := by
  simp only [getDirectionalMoves, BEAR_OFF_POSITION]
  rw [List.mem_filterMap]
  constructor
  · rintro ⟨piece, hmem, heq⟩
    rw [List.mem_filter] at hmem
    have hcond := of_decide_eq_true hmem.2
    exact ⟨piece, hmem.1, hcond.1, hcond.2, heq⟩
  · rintro ⟨piece, h1, h2, h3, h4⟩
    exact ⟨piece, List.mem_filter.mpr ⟨h1, decide_eq_true ⟨h2, h3⟩⟩, h4⟩

theorem getDirectionalMoves_isBackward {s : GameState} {p : PlayerId} {r : Int}
    {bw : Bool} {mv : Move} (h : mv ∈ getDirectionalMoves s p r bw) :
    mv.isBackward = bw := by
  obtain ⟨piece, -, -, -, hpd⟩ := mem_getDirectionalMoves.mp h
  exact (pieceDirectionalMove_fields hpd).2.2

/-- C1: `getLegalMoves` returns the forward set whenever it is non-empty (and
then every returned move is a forward move); the backward set is returned
only when the forward set is empty; when both are empty the result is `[]`. -/
theorem getLegalMoves_forward_first (s : GameState) (p : PlayerId) (r : Int) :
    (getDirectionalMoves s p r false ≠ [] →
      getLegalMoves s p r = getDirectionalMoves s p r false ∧
      ∀ mv ∈ getLegalMoves s p r, mv.isBackward = false) ∧
    (getDirectionalMoves s p r false = [] →
      getLegalMoves s p r = getDirectionalMoves s p r true) ∧
    (getDirectionalMoves s p r false = [] → getDirectionalMoves s p r true = [] →
      getLegalMoves s p r = []) := by
  refine ⟨fun h => ?_, fun h => ?_, fun h h2 => ?_⟩
  · have hcond : 0 < (getDirectionalMoves s p r false).length :=
      List.length_pos.mpr h
    have heq : getLegalMoves s p r = getDirectionalMoves s p r false := by
      simp only [getLegalMoves]
      rw [if_pos hcond]
    exact ⟨heq, fun mv hm => getDirectionalMoves_isBackward (heq ▸ hm)⟩
  · simp only [getLegalMoves]
    rw [if_neg (by simp [h])]
  · simp only [getLegalMoves]
    rw [if_neg (by simp [h])]
    exact h2

theorem getLegalMoves_forward_first_witness :
    getLegalMoves captureState PlayerId.player1 2 =
      getDirectionalMoves captureState PlayerId.player1 2 false :=
  ((getLegalMoves_forward_first captureState PlayerId.player1 2).1 (by decide)).1

/-- C2 counterexample: on `runBoard`, square 6 belongs to a contiguous
player1 3-run (5,6,7) of the full board index, and it lies on the path
5 → 8 (from exclusive, destination inclusive); yet `isPathBlocked` for that
path is `false`, because the moving piece `player1_a` (on square 5) is part
of the run and is removed from the index before run lengths are measured.
So a 3-run does NOT make every crossing path blocked as claimed. -/
theorem blockade_claim_counterexample :
    mapGet runBoard 6 = some ⟨"player1_b", PlayerId.player1, 6⟩ ∧
    getConsecutiveGroupSize runBoard 6 PlayerId.player1 = 3 ∧
    ((5:Int) < 6 ∧ (6:Int) ≤ 8) ∧
    isPathBlocked runBoard 5 8 "player1_a" = false := by decide

/-- C2 (amended): with run lengths measured after the moving piece is
removed from the index — which is what `isPathBlocked` does — a path is
blocked exactly when some square from `frm` (exclusive) to `dst` (inclusive)
carries a piece of a 3+ contiguous same-row run; hence a 2-run never blocks
a path (jumpable).  A piece of a 2+ run is `isProtected`, and
`getDirectionalMoves` never emits a capture move onto a protected square. -/
theorem two_run_jumpable_three_run_blocks :
    (∀ (bm : BoardMap) (frm dst : Int) (mid : String),
      isPathBlocked bm frm dst mid = true ↔
        ∃ pos, ((frm < pos ∧ pos ≤ dst) ∨ (dst ≤ pos ∧ pos < frm)) ∧
          0 ≤ pos ∧ pos < 30 ∧
          ∃ pc, mapGet (mapRemoveFirstById bm mid) pos = some pc ∧
            3 ≤ getConsecutiveGroupSize (mapRemoveFirstById bm mid) pos pc.owner) ∧
    (∀ (bm : BoardMap) (pos : Int) (pc : PieceState),
      mapGet bm pos = some pc → 2 ≤ getConsecutiveGroupSize bm pos pc.owner →
      isProtected bm pos = true) ∧
    (∀ (s : GameState) (p : PlayerId) (r : Int) (bw : Bool) (mv : Move),
      mv ∈ getDirectionalMoves s p r bw → mv.type = MoveType.capture →
      isProtected (buildBoardMap s.pieces) mv.dest = false) := by
  refine ⟨isPathBlocked_iff, fun bm pos pc hget hsz => ?_, fun s p r bw mv hm ht => ?_⟩
  · unfold isProtected
    rw [hget]
    simpa using hsz
  · obtain ⟨piece, -, -, -, hpd⟩ := mem_getDirectionalMoves.mp hm
    exact pieceDirectionalMove_capture_inv hpd ht

theorem two_run_jumpable_three_run_blocks_witness :
    isProtected pairBoard 6 = true ∧
    isProtected (buildBoardMap captureState.pieces)
      (⟨"player1_0", 4, 6, MoveType.capture, false⟩ : Move).dest = false ∧
    isPathBlocked tripleBoard 5 9 "x" = true := by
  refine ⟨?_, ?_, ?_⟩
  · exact (two_run_jumpable_three_run_blocks.2.1) pairBoard 6
      ⟨"player2_0", PlayerId.player2, 6⟩ (by decide) (by decide)
  · exact (two_run_jumpable_three_run_blocks.2.2) captureState PlayerId.player1 2 false
      ⟨"player1_0", 4, 6, MoveType.capture, false⟩ (by decide) rfl
  · exact ((two_run_jumpable_three_run_blocks.1) tripleBoard 5 9 "x").mpr
      ⟨6, Or.inl ⟨by norm_num, by norm_num⟩, by norm_num, by norm_num,
       ⟨"player2_0", PlayerId.player2, 6⟩, by decide, by decide⟩

/-- C10 counterexample: on `runBoard2`, square 16 belongs to a player2 3-run
(15,16,17) of the full board index and lies on the backward path 17 → 13,
yet `isPathBlocked` is `false`: the moving piece `player2_c` (on 17) is part
of that run and is removed before run lengths are measured, so the claim's
"blocked whenever any path square lies in a 3+ run of either player" fails
as stated. -/
theorem owner_agnostic_claim_counterexample :
    mapGet runBoard2 16 = some ⟨"player2_b", PlayerId.player2, 16⟩ ∧
    getConsecutiveGroupSize runBoard2 16 PlayerId.player2 = 3 ∧
    ((13:Int) ≤ 16 ∧ (16:Int) < 17) ∧
    isPathBlocked runBoard2 17 13 "player2_c" = false := by decide

/-- C10 (amended): path blocking is owner-agnostic over the index with the
moving piece removed: if any square from `frm` (exclusive) to the
destination (inclusive) — or, for bear-off, any square above `frm` — carries
a piece of a 3+ contiguous same-row run of either player (the moving
player's own runs included, as the run owner is unconstrained), then
`isPathBlocked` (resp. `isPathToBearOffBlocked`) returns `true`. -/
theorem path_blocked_owner_agnostic :
    (∀ (bm : BoardMap) (frm dst : Int) (mid : String) (pos : Int) (pc : PieceState),
      ((frm < pos ∧ pos ≤ dst) ∨ (dst ≤ pos ∧ pos < frm)) → 0 ≤ pos → pos < 30 →
      mapGet (mapRemoveFirstById bm mid) pos = some pc →
      3 ≤ getConsecutiveGroupSize (mapRemoveFirstById bm mid) pos pc.owner →
      isPathBlocked bm frm dst mid = true) ∧
    (∀ (bm : BoardMap) (frm : Int) (mid : String) (pos : Int) (pc : PieceState),
      frm < pos → pos < 30 →
      mapGet (mapRemoveFirstById bm mid) pos = some pc →
      3 ≤ getConsecutiveGroupSize (mapRemoveFirstById bm mid) pos pc.owner →
      isPathToBearOffBlocked bm frm mid = true) := by
  constructor
  · intro bm frm dst mid pos pc hpath h0 h30 hget hsz
    exact (isPathBlocked_iff bm frm dst mid).mpr ⟨pos, hpath, h0, h30, pc, hget, hsz⟩
  · intro bm frm mid pos pc h1 h2 hget hsz
    exact (isPathToBearOffBlocked_iff bm frm mid).mpr ⟨pos, h1, h2, pc, hget, hsz⟩

/-- The moving player's own 3-run (24,25,26, not containing the mover on 20)
blocks that player's own bear-off path. -/
theorem path_blocked_owner_agnostic_witness :
    isPathToBearOffBlocked wallBoard 20 "player1_0" = true :=
  path_blocked_owner_agnostic.2 wallBoard 20 "player1_0" 24
    ⟨"player1_1", PlayerId.player1, 24⟩ (by decide) (by decide) (by decide) (by decide)

theorem getLegalMoves_eq_forward_of_mem {s : GameState} {p : PlayerId} {r : Int}
    {mv : Move} (h : mv ∈ getDirectionalMoves s p r false) :
    getLegalMoves s p r = getDirectionalMoves s p r false := by
  simp only [getLegalMoves]
  rw [if_pos (List.length_pos.mpr (List.ne_nil_of_mem h))]

theorem getRow_eq_two {x : Int} (h : getRow x = 2) : 20 ≤ x ∧ x ≤ 29 := by
  unfold getRow at h
  split_ifs at h <;> omega

theorem setPosFirst_idOwner (ps : List PieceState) (pid : String) (x : Int) :
    (setPosFirst ps pid x).map (fun p => (p.id, p.owner)) =
      ps.map (fun p => (p.id, p.owner)) := by
  induction ps with
  | nil => rfl
  | cons p rest ih =>
      simp only [setPosFirst]
      split
      · simp
      · simp [ih]

theorem setPosFirstWhere_idOwner (ps : List PieceState) (f : PieceState → Bool) (x : Int) :
    (setPosFirstWhere ps f x).map (fun p => (p.id, p.owner)) =
      ps.map (fun p => (p.id, p.owner)) := by
  induction ps with
  | nil => rfl
  | cons p rest ih =>
      simp only [setPosFirstWhere]
      split
      · simp
      · simp [ih]

theorem hasPieceId_congr {ps qs : List PieceState}
    (h : ps.map (fun p => (p.id, p.owner)) = qs.map (fun p => (p.id, p.owner)))
    (pid : String) : hasPieceId ps pid = hasPieceId qs pid := by
  induction ps generalizing qs with
  | nil =>
      cases qs with
      | nil => rfl
      | cons q qt => exact absurd h (by simp)
  | cons p rest ih =>
      cases qs with
      | nil => exact absurd h (by simp)
      | cons q qt =>
          simp only [List.map_cons, List.cons.injEq] at h
          have hid : p.id = q.id := congrArg Prod.fst h.1
          have h3 := ih h.2
          simp only [hasPieceId] at h3
          simp [hasPieceId, List.any_cons, hid, h3]

theorem movePieces_ok {ps : List PieceState} {m : Move} {moved : List PieceState}
    {e0 : Option String} (h : movePieces ps m = Except.ok (moved, e0)) :
    moved.map (fun p => (p.id, p.owner)) = ps.map (fun p => (p.id, p.owner)) ∧
      hasPieceId ps m.pieceId = true := by
  simp only [movePieces] at h
  repeat' split at h
  all_goals first
    | exact Except.noConfusion h
    | (injection h with h1; injection h1 with h2 h3; subst h2;
       exact ⟨by simp [setPosFirst_idOwner, setPosFirstWhere_idOwner], by assumption⟩)

theorem setPosFirst_find {ps : List PieceState} {pid : String} (x : Int)
    (h : hasPieceId ps pid = true) :
    ∃ pc, findPieceById (setPosFirst ps pid x) pid = some pc ∧ pc.position = x := by
  induction ps with
  | nil => simp [hasPieceId] at h
  | cons p rest ih =>
      by_cases hp : p.id = pid
      · refine ⟨{ p with position := x }, ?_, rfl⟩
        simp [setPosFirst, findPieceById, hp, List.find?]
      · have h' : hasPieceId rest pid = true := by
          simp only [hasPieceId, List.any_cons, Bool.or_eq_true] at h
          rcases h with h | h
          · exact absurd (of_decide_eq_true h) hp
          · exact h
        obtain ⟨pc, hfind, hpos⟩ := ih h'
        refine ⟨pc, ?_, hpos⟩
        simpa [setPosFirst, findPieceById, hp, List.find?] using hfind

theorem setPosFirst_filter_ne (ps : List PieceState) (pid : String) (x : Int) :
    (setPosFirst ps pid x).filter (fun q => decide (q.id ≠ pid)) =
      ps.filter (fun q => decide (q.id ≠ pid)) := by
  induction ps with
  | nil => rfl
  | cons p rest ih =>
      by_cases hp : p.id = pid
      · simp [setPosFirst, hp]
      · simp only [setPosFirst, if_neg hp, List.filter_cons]
        simp only [ne_eq, decide_not] at ih
        simp [hp, ih]

theorem specialSquareStep_idOwner (ps : List PieceState) (m : Move) (e : Option String)
    (er : Int) :
    (specialSquareStep ps m e er).1.map (fun p => (p.id, p.owner)) =
      ps.map (fun p => (p.id, p.owner)) := by
  unfold specialSquareStep
  repeat' split
  all_goals simp [setPosFirst_idOwner]

theorem ownerCount_congr {ps qs : List PieceState}
    (h : ps.map (fun p => (p.id, p.owner)) = qs.map (fun p => (p.id, p.owner)))
    (o : PlayerId) :
    (ps.filter fun p => decide (p.owner = o)).length =
      (qs.filter fun p => decide (p.owner = o)).length := by
  induction ps generalizing qs with
  | nil =>
      have : qs = [] := by
        cases qs with
        | nil => rfl
        | cons q qt => exact absurd h (by simp)
      subst this; rfl
  | cons p rest ih =>
      cases qs with
      | nil => exact absurd h (by simp)
      | cons q qt =>
          simp only [List.map_cons, List.cons.injEq] at h
          have howner : p.owner = q.owner := congrArg Prod.snd h.1
          by_cases ho : p.owner = o
          · simp [List.filter_cons, ho, howner ▸ ho, ih h.2]
          · have ho2 : ¬ q.owner = o := howner ▸ ho
            simp [List.filter_cons, ho, ho2, ih h.2]

theorem applyMove_ok_elim {s : GameState} {m : Move} {now : Int} {s' : GameState}
    (h : applyMove s m now = Except.ok s') :
    s.phase = GamePhase.playing ∧ s.turnPhase = TurnPhase.move ∧
    ∃ rollVal moved event0,
      s.currentRoll = some rollVal ∧
      (getLegalMoves s s.currentPlayer rollVal).any
        (fun lm => decide (lm.pieceId = m.pieceId ∧ lm.dest = m.dest)) = true ∧
      movePieces s.pieces m = Except.ok (moved, event0) ∧
      s' = applyMoveResult s m rollVal now moved event0 := by
  simp only [applyMove] at h
  split at h
  · exact Except.noConfusion h
  · rename_i hphase
    split at h
    · exact Except.noConfusion h
    · rename_i hturn
      split at h
      · exact Except.noConfusion h
      · rename_i rollVal hroll
        split at h
        · exact Except.noConfusion h
        · rename_i hlegal
          split at h
          · exact Except.noConfusion h
          · rename_i moved event0 hmove
            injection h with h1
            refine ⟨by simpa using hphase, by simpa using hturn,
              rollVal, moved, event0, hroll, ?_, hmove, h1.symm⟩
            simpa using hlegal

theorem specialSquareStep_netting (m : Move) (hdest : m.dest = 13)
    (ps : List PieceState) (e : Option String) (er : Int) :
    specialSquareStep ps m e er = (ps, some "house_of_netting", 0, true) := by
  norm_num [specialSquareStep, hdest, WATERS_OF_CHAOS, HOUSE_OF_NETTING, BEAR_OFF_POSITION]

theorem specialSquareStep_waters (m : Move) (hdest : m.dest = 26)
    (ps : List PieceState) (e : Option String) (er : Int) :
    specialSquareStep ps m e er =
      (setPosFirst ps m.pieceId
        (washDestination (buildBoardMap (ps.filter fun q => decide (q.id ≠ m.pieceId)))),
       some "waters_of_chaos", 0, true) := by
  norm_num [specialSquareStep, hdest, WATERS_OF_CHAOS, BEAR_OFF_POSITION]

theorem washDestination_eq (bm : BoardMap) :
    washDestination bm =
      (if mapHas bm 13 = false then 13
       else if mapHas bm 0 = false then 0
       else findFirstAvailableSquare bm 1) := by
  unfold washDestination HOUSE_OF_NETTING
  cases h13 : mapHas bm 13 <;> cases h0 : mapHas bm 0 <;> simp [h13, h0]

/-- C3: every successful `applyMove` whose destination is square 13 (house
of netting) zeroes the pending extra rolls and ends the turn — the current
player switches to the opponent and the turn number increments — for every
die value, including 1, 4 and 5. -/
theorem applyMove_house_of_netting (s : GameState) (m : Move) (now : Int) (s' : GameState)
    (h : applyMove s m now = Except.ok s') (hdest : m.dest = 13) :
    s'.extraRolls = 0 ∧ s'.currentPlayer = getOpponent s.currentPlayer ∧
      s'.turnNumber = s.turnNumber + 1 := by
  obtain ⟨-, -, r, moved, e0, -, -, -, hres⟩ := applyMove_ok_elim h
  subst hres
  simp [applyMoveResult, specialSquareStep_netting m hdest moved e0 s.extraRolls]

theorem applyMove_house_of_netting_witness :
    nettingResult.extraRolls = 0 ∧
    nettingResult.currentPlayer = getOpponent nettingState.currentPlayer ∧
    nettingResult.turnNumber = nettingState.turnNumber + 1 :=
  applyMove_house_of_netting nettingState nettingMove 0 nettingResult rfl rfl

/-- C4: every successful `applyMove` whose destination is square 26 (waters
of chaos) ends the turn (player switched, turn number incremented, pending
extra rolls zeroed) and leaves the moved piece on square 13 if free, else on
square 0 if free, else on the first free square scanning upward from 1
(wrapping) — freeness measured over the other pieces of the resulting
state. -/
theorem applyMove_waters_of_chaos (s : GameState) (m : Move) (now : Int) (s' : GameState)
    (h : applyMove s m now = Except.ok s') (hdest : m.dest = 26) :
    s'.currentPlayer = getOpponent s.currentPlayer ∧
    s'.turnNumber = s.turnNumber + 1 ∧
    s'.extraRolls = 0 ∧
    ∃ pc, findPieceById s'.pieces m.pieceId = some pc ∧
      pc.position =
        (if mapHas (buildBoardMap (s'.pieces.filter fun q => decide (q.id ≠ m.pieceId))) 13
            = false then 13
         else if mapHas (buildBoardMap (s'.pieces.filter fun q => decide (q.id ≠ m.pieceId))) 0
            = false then 0
         else findFirstAvailableSquare
            (buildBoardMap (s'.pieces.filter fun q => decide (q.id ≠ m.pieceId))) 1) := by
  obtain ⟨-, -, r, moved, e0, -, -, hmp, hres⟩ := applyMove_ok_elim h
  subst hres
  have hspec := specialSquareStep_waters m hdest moved e0 s.extraRolls
  obtain ⟨hmap, hhas⟩ := movePieces_ok hmp
  have hhas2 : hasPieceId moved m.pieceId = true := by
    rw [hasPieceId_congr hmap]; exact hhas
  have hpieces : (applyMoveResult s m r now moved e0).pieces =
      setPosFirst moved m.pieceId
        (washDestination (buildBoardMap (moved.filter fun q => decide (q.id ≠ m.pieceId)))) := by
    simp [applyMoveResult, hspec]
  have hfilter : ((applyMoveResult s m r now moved e0).pieces.filter
        fun q => decide (q.id ≠ m.pieceId)) =
      moved.filter (fun q => decide (q.id ≠ m.pieceId)) := by
    rw [hpieces, setPosFirst_filter_ne]
  refine ⟨?_, ?_, ?_, ?_⟩
  · simp [applyMoveResult, hspec]
  · simp [applyMoveResult, hspec]
  · simp [applyMoveResult, hspec]
  · obtain ⟨pc, hfind, hpos⟩ := setPosFirst_find
      (washDestination (buildBoardMap (moved.filter fun q => decide (q.id ≠ m.pieceId))))
      hhas2
    refine ⟨pc, ?_, ?_⟩
    · rw [hpieces]; exact hfind
    · rw [hpos, hfilter, washDestination_eq]

theorem applyMove_waters_of_chaos_witness :
    watersResult.currentPlayer = getOpponent watersState.currentPlayer ∧
    watersResult.turnNumber = watersState.turnNumber + 1 ∧
    watersResult.extraRolls = 0 ∧
    ∃ pc, findPieceById watersResult.pieces watersMove.pieceId = some pc ∧
      pc.position =
        (if mapHas (buildBoardMap (watersResult.pieces.filter
              fun q => decide (q.id ≠ watersMove.pieceId))) 13 = false then 13
         else if mapHas (buildBoardMap (watersResult.pieces.filter
              fun q => decide (q.id ≠ watersMove.pieceId))) 0 = false then 0
         else findFirstAvailableSquare
            (buildBoardMap (watersResult.pieces.filter
              fun q => decide (q.id ≠ watersMove.pieceId))) 1) :=
  applyMove_waters_of_chaos watersState watersMove 0 watersResult rfl rfl

/-- C5: for any state, player and die, the bear-off move of a piece is in
the legal-move set exactly when `position + die = 30`, the piece stands on
the final row, and the bear-off path is unblocked; and a piece whose forward
target overshoots (exceeds 30) contributes no forward move at all. -/
theorem bear_off_exact_roll_only (s : GameState) (p : PlayerId) (r : Int)
    (pc : PieceState) (hmem : pc ∈ s.pieces) (howner : pc.owner = p) :
    (((⟨pc.id, pc.position, 30, MoveType.bear_off, false⟩ : Move)
        ∈ getLegalMoves s p r) ↔
      (pc.position + r = 30 ∧ getRow pc.position = 2 ∧
        isPathToBearOffBlocked (buildBoardMap s.pieces) pc.position pc.id = false)) ∧
    (30 < pc.position + r →
      ∀ mv ∈ getLegalMoves s p r,
        ¬(mv.pieceId = pc.id ∧ mv.frm = pc.position ∧ mv.isBackward = false)) := by
  constructor
  · constructor
    · intro hin
      by_cases hlen : 0 < (getDirectionalMoves s p r false).length
      · have hfwd : (⟨pc.id, pc.position, 30, MoveType.bear_off, false⟩ : Move)
            ∈ getDirectionalMoves s p r false := by
          simpa only [getLegalMoves, if_pos hlen] using hin
        obtain ⟨q, -, -, -, hpd⟩ := mem_getDirectionalMoves.mp hfwd
        obtain ⟨-, h30, hrow, hblk, hrec⟩ := pieceDirectionalMove_bear_off_inv hpd rfl
        have hid : pc.id = q.id := congrArg Move.pieceId hrec
        have hposq : pc.position = q.position := congrArg Move.frm hrec
        rw [hposq, hid]
        exact ⟨h30, hrow, hblk⟩
      · have hbwd := hin
        simp only [getLegalMoves, if_neg hlen] at hbwd
        have := getDirectionalMoves_isBackward hbwd
        simp at this
    · rintro ⟨h30, hrow, hblk⟩
      have hlt : pc.position < 30 := by
        have := getRow_eq_two hrow
        omega
      have hfwd : (⟨pc.id, pc.position, 30, MoveType.bear_off, false⟩ : Move)
          ∈ getDirectionalMoves s p r false :=
        mem_getDirectionalMoves.mpr
          ⟨pc, hmem, howner, hlt, pieceDirectionalMove_bear_off_emit h30 hrow hblk⟩
      rw [getLegalMoves_eq_forward_of_mem hfwd]
      exact hfwd
  · rintro hover mv hin ⟨hid, hfrm, hbw⟩
    by_cases hlen : 0 < (getDirectionalMoves s p r false).length
    · have hfwd : mv ∈ getDirectionalMoves s p r false := by
        simpa only [getLegalMoves, if_pos hlen] using hin
      obtain ⟨q, -, -, -, hpd⟩ := mem_getDirectionalMoves.mp hfwd
      obtain ⟨hqid, hqfrm, -⟩ := pieceDirectionalMove_fields hpd
      have hqpos : q.position = pc.position := by rw [← hqfrm, hfrm]
      have hnone : pieceDirectionalMove (buildBoardMap s.pieces) p r false q = none :=
        pieceDirectionalMove_overshoot (by omega)
      rw [hnone] at hpd
      exact Option.noConfusion hpd
    · have hbwd := hin
      simp only [getLegalMoves, if_neg hlen] at hbwd
      have := getDirectionalMoves_isBackward hbwd
      rw [hbw] at this
      exact Bool.noConfusion this

theorem bear_off_exact_roll_only_witness :
    ((⟨"player1_0", 25, 30, MoveType.bear_off, false⟩ : Move)
        ∈ getLegalMoves bearOffState PlayerId.player1 5) ∧
    ¬(("player1_1" : String) = "player1_0" ∧ (2 : Int) = 25 ∧ (false : Bool) = false) :=
  ⟨((bear_off_exact_roll_only bearOffState PlayerId.player1 5
      ⟨"player1_0", PlayerId.player1, 25⟩ (by decide) rfl).1).mpr (by decide),
   (bear_off_exact_roll_only bearOffState PlayerId.player1 6
      ⟨"player1_0", PlayerId.player1, 25⟩ (by decide) rfl).2 (by decide)
      ⟨"player1_1", 2, 8, MoveType.normal, false⟩ (by decide)⟩

/-- C6: in playing phase and roll sub-phase, `applyRoll` with a 6 succeeds
and changes nothing but the log — the current player, turn phase, pieces and
turn number are unchanged, `currentRoll` stays `null`, and exactly one
`rolled_6` entry is appended. -/
theorem applyRoll_six_frame (s : GameState) (now : Int)
    (h1 : s.phase = GamePhase.playing) (h2 : s.turnPhase = TurnPhase.roll) :
    ∃ s', applyRoll s 6 now = Except.ok s' ∧
      s'.currentPlayer = s.currentPlayer ∧
      s'.turnPhase = s.turnPhase ∧
      s'.pieces = s.pieces ∧
      s'.turnNumber = s.turnNumber ∧
      s'.currentRoll = none ∧
      s'.moveLog = s.moveLog ++
        [logEntry s.turnNumber s.currentPlayer 6 none (some "rolled_6") now] := by
  refine ⟨{ s with
      currentRoll := none,
      moveLog := s.moveLog ++
        [logEntry s.turnNumber s.currentPlayer 6 none (some "rolled_6") now] },
    ?_, rfl, rfl, rfl, rfl, rfl, rfl⟩
  simp [applyRoll, h1, h2]

theorem applyRoll_six_frame_witness :
    ∃ s', applyRoll rollState 6 44 = Except.ok s' ∧
      s'.currentPlayer = rollState.currentPlayer ∧
      s'.turnPhase = rollState.turnPhase ∧
      s'.pieces = rollState.pieces ∧
      s'.turnNumber = rollState.turnNumber ∧
      s'.currentRoll = none ∧
      s'.moveLog = rollState.moveLog ++
        [logEntry rollState.turnNumber rollState.currentPlayer 6 none
          (some "rolled_6") 44] :=
  applyRoll_six_frame rollState 44 rfl rfl

/-- C7: the faceoff placement creates exactly 10 pieces, 5 per owner, and
every transition preserves the piece collection: `applyRoll` never touches
the pieces at all, and `applyMove` preserves the length and the per-owner
counts (bearing off only sets a position to the sentinel 30 and a capture
only swaps two positions — no piece is ever removed). -/
theorem piece_count_invariant :
    (∀ fp : PlayerId, (placePieces fp).length = 10 ∧
      ((placePieces fp).filter fun p => decide (p.owner = PlayerId.player1)).length = 5 ∧
      ((placePieces fp).filter fun p => decide (p.owner = PlayerId.player2)).length = 5) ∧
    (∀ (s : GameState) (a b : Int),
      (performInitialRoll s a b).pieces = s.pieces ∨
      ∃ w, (performInitialRoll s a b).pieces = placePieces w) ∧
    (∀ (s : GameState) (r now : Int) (s' : GameState),
      applyRoll s r now = Except.ok s' → s'.pieces = s.pieces) ∧
    (∀ (s : GameState) (m : Move) (now : Int) (s' : GameState),
      applyMove s m now = Except.ok s' →
      s'.pieces.length = s.pieces.length ∧
      ∀ o : PlayerId, (s'.pieces.filter fun p => decide (p.owner = o)).length =
        (s.pieces.filter fun p => decide (p.owner = o)).length) := by
  refine ⟨fun fp => ?_, fun s a b => ?_, fun s r now s' h => ?_, fun s m now s' h => ?_⟩
  · cases fp <;> exact ⟨by decide, by decide, by decide⟩
  · simp only [performInitialRoll]
    split
    · exact Or.inr ⟨_, rfl⟩
    · exact Or.inl rfl
  · simp only [applyRoll] at h
    repeat' split at h
    all_goals first
      | exact Except.noConfusion h
      | (injection h with h1; subst h1; rfl)
  · obtain ⟨-, -, r, moved, e0, -, -, hmp, hres⟩ := applyMove_ok_elim h
    have hmap : s'.pieces.map (fun p => (p.id, p.owner)) =
        s.pieces.map (fun p => (p.id, p.owner)) := by
      subst hres
      show ((specialSquareStep moved m e0 s.extraRolls).1.map fun p => (p.id, p.owner)) =
        s.pieces.map fun p => (p.id, p.owner)
      rw [specialSquareStep_idOwner]
      exact (movePieces_ok hmp).1
    constructor
    · have hlen := congrArg List.length hmap
      simpa using hlen
    · exact fun o => ownerCount_congr hmap o

theorem piece_count_invariant_witness :
    rolledState.pieces = rollState.pieces ∧
    nettingResult.pieces.length = nettingState.pieces.length ∧
    (nettingResult.pieces.filter fun p => decide (p.owner = PlayerId.player1)).length =
      (nettingState.pieces.filter fun p => decide (p.owner = PlayerId.player1)).length :=
  ⟨piece_count_invariant.2.2.1 rollState 2 0 rolledState rfl,
   (piece_count_invariant.2.2.2 nettingState nettingMove 0 nettingResult rfl).1,
   (piece_count_invariant.2.2.2 nettingState nettingMove 0 nettingResult rfl).2
     PlayerId.player1⟩

/-- C8: `applyMove` fails with the phase-contract errors when the phase is
not `playing`, the turn phase is not `move`, or there is no current roll,
and fails with the `Illegal move` error when the proposed `(pieceId, dest)`
pair does not occur in the freshly recomputed legal-move set.  The embedding
is a pure function returning `Except.error`, mirroring that the source
throws before constructing any new state, so the input state is unchanged in
every failure case. -/
theorem applyMove_error_contract (s : GameState) (m : Move) (now : Int) :
    (s.phase ≠ GamePhase.playing →
      applyMove s m now = Except.error "Game is not in playing phase") ∧
    (s.phase = GamePhase.playing → s.turnPhase ≠ TurnPhase.move →
      applyMove s m now = Except.error "Not in move phase") ∧
    (s.phase = GamePhase.playing → s.turnPhase = TurnPhase.move →
      s.currentRoll = none →
      applyMove s m now = Except.error "No current roll") ∧
    (∀ r : Int, s.phase = GamePhase.playing → s.turnPhase = TurnPhase.move →
      s.currentRoll = some r →
      (getLegalMoves s s.currentPlayer r).any
        (fun lm => decide (lm.pieceId = m.pieceId ∧ lm.dest = m.dest)) = false →
      applyMove s m now = Except.error "Illegal move") := by
  refine ⟨fun h1 => ?_, fun h1 h2 => ?_, fun h1 h2 h3 => ?_, fun r h1 h2 h3 h4 => ?_⟩
  · simp [applyMove, h1]
  · simp [applyMove, h1, h2]
  · simp [applyMove, h1, h2, h3]
  · simp only [applyMove, h3]
    rw [if_neg (by simp [h1]), if_neg (by simp [h2]), h4]
    simp

theorem applyMove_error_contract_witness :
    applyMove (initGame "w") nettingMove 0 =
      Except.error "Game is not in playing phase" ∧
    applyMove rollState nettingMove 0 = Except.error "Not in move phase" ∧
    applyMove noRollState nettingMove 0 = Except.error "No current roll" ∧
    applyMove nettingState ⟨"player1_0", 8, 12, MoveType.normal, false⟩ 0 =
      Except.error "Illegal move" :=
  ⟨(applyMove_error_contract (initGame "w") nettingMove 0).1 (by decide),
   (applyMove_error_contract rollState nettingMove 0).2.1 rfl (by decide),
   (applyMove_error_contract noRollState nettingMove 0).2.2.1 rfl rfl rfl,
   (applyMove_error_contract nettingState
      ⟨"player1_0", 8, 12, MoveType.normal, false⟩ 0).2.2.2 5 rfl rfl rfl (by decide)⟩

theorem decPlayerId_enc (p : PlayerId) : decPlayerId (playerIdStr p) = some p := by
  cases p <;> rfl

theorem decGamePhase_enc (g : GamePhase) : decGamePhase (gamePhaseStr g) = some g := by
  cases g <;> rfl

theorem decTurnPhase_enc (t : TurnPhase) : decTurnPhase (turnPhaseStr t) = some t := by
  cases t <;> rfl

theorem decPiece_enc (p : PieceState) : decPiece (encPiece p) = some p := by
  cases p with
  | mk i o pos => cases o <;> rfl

theorem decMove_enc (m : Move) : decMove (encMove m) = some m := by
  cases m with
  | mk pid f t ty b => cases ty <;> rfl

theorem decOptMove_enc (om : Option Move) : decOptMove (encOptMove om) = some om := by
  cases om with
  | none => rfl
  | some m =>
      cases m with
      | mk pid f t ty b => cases ty <;> rfl

theorem decLogEntry_enc (e : MoveLogEntry) : decLogEntry (encLogEntry e) = some e := by
  rcases e with ⟨tn, pl, rv, mv, ev, ts⟩
  cases pl <;> rcases ev with _ | ev <;> rcases mv with _ | ⟨pid, f, t, ty, b⟩ <;>
    first
      | rfl
      | (cases ty <;> rfl)

theorem decRound_enc (r : InitialRollRound) : decRound (encRound r) = some r := by
  cases r; rfl

theorem decOptPlayer_enc (op : Option PlayerId) :
    decOptPlayer (encOptPlayer op) = some op := by
  rcases op with _ | p
  · rfl
  · cases p <;> rfl

theorem decOptInt_enc (oi : Option Int) : decOptInt (encOptInt oi) = some oi := by
  rcases oi with _ | n <;> rfl

theorem decJsonList_enc {α : Type} (g : Json → Option α) (f : α → Json)
    (hrt : ∀ a, g (f a) = some a) (xs : List α) :
    decJsonList g (xs.map f) = some xs := by
  induction xs with
  | nil => rfl
  | cons x xt ih => simp [decJsonList, hrt x, ih]

theorem decPieceList_enc (ps : List PieceState) :
    decJsonList decPiece (ps.map encPiece) = some ps :=
  decJsonList_enc decPiece encPiece decPiece_enc ps

theorem decLogList_enc (ml : List MoveLogEntry) :
    decJsonList decLogEntry (ml.map encLogEntry) = some ml :=
  decJsonList_enc decLogEntry encLogEntry decLogEntry_enc ml

theorem decRoundList_enc (rs : List InitialRollRound) :
    decJsonList decRound (rs.map encRound) = some rs :=
  decJsonList_enc decRound encRound decRound_enc rs

theorem decInitialRollState_enc (ir : InitialRollState) :
    decInitialRollState (encInitialRollState ir) = some ir := by
  rcases ir with ⟨rounds, dec, fp⟩
  simp [encInitialRollState, decInitialRollState, decRoundList_enc, decOptPlayer_enc]

set_option maxHeartbeats 1000000 in
theorem decGameState_enc (s : GameState) : decGameState (encGameState s) = some s := by
  rcases s with ⟨gid, ph, pieces, cp, tp, cr, tn, ml, w, er, ir⟩
  have hred : decGameState (encGameState ⟨gid, ph, pieces, cp, tp, cr, tn, ml, w, er, ir⟩) =
      ((decGamePhase (gamePhaseStr ph)).bind fun phase =>
        (decJsonList decPiece (pieces.map encPiece)).bind fun pieces1 =>
          (decPlayerId (playerIdStr cp)).bind fun currentPlayer =>
            (decTurnPhase (turnPhaseStr tp)).bind fun turnPhase =>
              (decOptInt (encOptInt cr)).bind fun currentRoll =>
                (decJsonList decLogEntry (ml.map encLogEntry)).bind fun moveLog =>
                  (decOptPlayer (encOptPlayer w)).bind fun winner =>
                    (decInitialRollState (encInitialRollState ir)).map fun initialRolls =>
                      { id := gid, phase := phase, pieces := pieces1,
                        currentPlayer := currentPlayer, turnPhase := turnPhase,
                        currentRoll := currentRoll, turnNumber := tn,
                        moveLog := moveLog, winner := winner, extraRolls := er,
                        initialRolls := initialRolls }) := rfl
  rw [hred, decGamePhase_enc, decPieceList_enc, decPlayerId_enc, decTurnPhase_enc,
    decOptInt_enc, decLogList_enc, decOptPlayer_enc, decInitialRollState_enc]
  rfl

/-- C9: serializing any `GameState` to a JSON value and deserializing it
back recovers the state exactly — in particular the piece positions, the
phase and the move log are identical. -/
theorem gameState_json_round_trip (s : GameState) :
    ∃ s2, decGameState (encGameState s) = some s2 ∧
      s2.pieces = s.pieces ∧ s2.phase = s.phase ∧ s2.moveLog = s.moveLog :=
  ⟨s, decGameState_enc s, rfl, rfl, rfl⟩
